import Mathlib

/-
Verification of the pyIPOPT adapter (src/pyOptSparse/pyIPOPT/pyIPOPT.py).

The module is a thin adapter between the pyOptSparse host framework and the
native IPOPT solver.  We give a shallow embedding of its logic as pure Lean
functions:

* Python option values are a tagged union `PyVal`; the `isinstance` dispatch
  of `_set_ipopt_options` becomes a match on the tag.  Calls made on the
  native solver instance are recorded as an explicit trace of `SetterCall`s.
* Sparse matrices in COO format are `COOMat` (row/col index lists plus data);
  `scipy.sparse.vstack` of two COO blocks concatenates the triplets with the
  second block's row indices offset by the first block's row count.
* Functions inherited from the `Optimizer` base class and the native library
  (`masterFunc`, `processConstraintJacobian`, `_createSolution`, `nlp.solve`)
  are opaque to this file, so they appear as abstract function parameters.
* `.copy()` / `copy.deepcopy` on immutable data are value-identity in the
  pure model; dictionaries iterated in insertion order become association
  lists; a Python exception becomes `Except.error`.
-/

namespace PyIPOPT

/-- A Python runtime value as it can appear as an option value: the
`isinstance` chain of `_set_ipopt_options` distinguishes `str`, `float` and
`int`; everything else falls through to the diagnostic branch. -/
inductive PyVal where
  | str (s : String)
  | float (q : Rat)
  | int (n : Int)
  | other (tag : String)
deriving DecidableEq

/-- One call made on the native solver instance `nlp` to set an option. -/
inductive SetterCall where
  | strOption (name : String) (v : String)
  | numOption (name : String) (v : Rat)
  | intOption (name : String) (v : Int)
deriving DecidableEq

/-- Embedding of `IPOPT._set_ipopt_options` (pyIPOPT.py lines 298-320): walk
`self.set_options` in order; for each `[name, value]` entry make exactly one
setter call on `nlp` chosen by the runtime type of `value` (`str_option` for a
string, `num_option` for a float, `int_option` for an int), and for any other
type print a diagnostic and make no call.  The calls are returned as a trace
in the order they are made. -/
def set_ipopt_options : List (String × PyVal) → List SetterCall
  | [] => []
  | (name, PyVal.str s) :: rest => SetterCall.strOption name s :: set_ipopt_options rest
  | (name, PyVal.float q) :: rest => SetterCall.numOption name q :: set_ipopt_options rest
  | (name, PyVal.int n) :: rest => SetterCall.intOption name n :: set_ipopt_options rest
  | (_, PyVal.other _) :: rest => set_ipopt_options rest

/-- Embedding of `IPOPT._on_setOption` (lines 322-329):
`self.set_options.append([name, value])`. -/
def on_setOption (set_options : List (String × PyVal)) (name : String)
    (value : PyVal) : List (String × PyVal) :=
  set_options ++ [(name, value)]

/-- The `def_opts` dictionary of the constructor (lines 82-105), as an
association list in source order. -/
def def_opts : List (String × PyVal) :=
  [("tol", PyVal.float (1 / 1000000)),
   ("hessian_approximation", PyVal.str "limited-memory"),
   ("limited_memory_max_history", PyVal.int 10),
   ("max_iter", PyVal.int 100),
   ("print_level", PyVal.int 5),
   ("print_user_options", PyVal.str "no"),
   ("print_options_documentation", PyVal.str "no"),
   ("print_frequency_iter", PyVal.int 1),
   ("print_frequency_time", PyVal.int 0),
   ("output_file", PyVal.str "IPOPT_print.out"),
   ("file_print_level", PyVal.int 5),
   ("option_file_name", PyVal.str "IPOPT_options.opt"),
   ("print_info_string", PyVal.str "no"),
   ("inf_pr_output", PyVal.str "original"),
   ("print_timing_statistics", PyVal.str "no"),
   ("derivative_test", PyVal.str "none"),
   ("derivative_test_perturbation", PyVal.float (1 / 100000000)),
   ("derivative_test_tol", PyVal.float (1 / 10000)),
   ("derivative_test_print_all", PyVal.str "no"),
   ("derivative_test_first_index", PyVal.int (-2)),
   ("point_perturbation_radius", PyVal.int 10)]

/-- The attributes of the `IPOPT` instance that this file's claims read or
write.  `options`/`def_opts` live in the base class; `set_options`, `informs`,
`jacType` and `unconstrained` are set in `IPOPT.__init__`. -/
structure OptimizerState where
  set_options : List (String × PyVal)
  informs : List (Int × String)
  jacType : String
  unconstrained : Bool
deriving DecidableEq

/-- The state established by `IPOPT.__init__` (lines 75-116):
`self.set_options = []`, `informs = {}` (empty), `self.jacType = 'coo'`,
`self.unconstrained = False`. -/
def initState : OptimizerState :=
  { set_options := []
    informs := []
    jacType := "coo"
    unconstrained := false }

/-- A sparse matrix in COO (triplet) format: what `scipy.sparse` hands back
and what the adapter reads `.row` / `.col` from. -/
structure COOMat where
  nrows : Nat
  ncols : Nat
  row : List Nat
  col : List Nat
  data : List Rat
deriving DecidableEq

/-- `scipy.sparse.vstack([A, B])` on COO matrices: the triplets of `A`
followed by those of `B` with `B`'s row indices shifted down by `A.nrows`. -/
def COOMat.vstack (A B : COOMat) : COOMat :=
  { nrows := A.nrows + B.nrows
    ncols := A.ncols
    row := A.row ++ B.row.map (fun r => r + A.nrows)
    col := A.col ++ B.col
    data := A.data ++ B.data }

/-- One constraint of the host problem: its key in the ordered
`optProb.constraints` dict, its `linear` flag, and its sparse Jacobian block
`con.jac`. -/
structure Constraint where
  name : String
  linear : Bool
  jac : COOMat
deriving DecidableEq

/-- The parts of the host `Optimization` object the claims touch.
`optProb.constraints` is an ordered dict, embedded as a list in insertion
order; `dummyConstraint` is the attribute `__call__` may set on it. -/
structure OptProb where
  constraints : List Constraint
  linearJacobian : Option COOMat
  dummyConstraint : Bool
deriving DecidableEq

/-- The loop at lines 216-220 of `__call__`: iterate the constraints in
order and collect `gcon[iCon] = con.jac` for every non-linear one. -/
def collectNonlinearJacs : List Constraint → List (String × COOMat)
  | [] => []
  | con :: rest =>
    if !con.linear then (con.name, con.jac) :: collectNonlinearJacs rest
    else collectNonlinearJacs rest

/-- What the Jacobian set-up phase of `__call__` hands to
`pyipoptcore.create`: the frozen structure `matStruct` and the `nnzj`/`nnzh`
arguments. -/
structure JacSetup where
  matStruct : List Nat × List Nat
  nnzj : Nat
  nnzh : Nat
deriving DecidableEq

/-- Embedding of lines 216-233 and 258-260 of `__call__`: collect the
non-linear Jacobian blocks, process them into a full Jacobian (via the base
class's `processConstraintJacobian`, abstract here), stack the linear
Jacobian below it when `optProb.linearJacobian` is not `None`, keep copies of
the resulting `.row`/`.col` arrays as `matStruct`, and set
`nnzj = len(matStruct[0])`, `nnzh = 0`. -/
def setupJacobian (processConstraintJacobian : List (String × COOMat) → COOMat)
    (constraints : List Constraint) (linearJacobian : Option COOMat) : JacSetup :=
  let gcon := collectNonlinearJacs constraints
  let fullJacobian := processConstraintJacobian gcon
  let fullJacobian :=
    match linearJacobian with
    | some lj => fullJacobian.vstack lj
    | none => fullJacobian
  { matStruct := (fullJacobian.row, fullJacobian.col)
    nnzj := fullJacobian.row.length
    nnzh := 0 }

/-- Embedding of the callback `eval_f` (lines 239-241): call
`self.masterFunc(x, ['fobj'])` and return the first component, discarding the
`fail` flag. -/
def eval_f {X A : Type} (masterFunc : X → List String → A × Bool) (x : X) : A :=
  (masterFunc x ["fobj"]).1

/-- Embedding of `eval_g` (lines 243-245): return `fcon.copy()` where
`(fcon, fail) = self.masterFunc(x, ['fcon'])`; `.copy()` is value-identity
here. -/
def eval_g {X A : Type} (masterFunc : X → List String → A × Bool) (x : X) : A :=
  (masterFunc x ["fcon"]).1

/-- Embedding of `eval_grad_f` (lines 247-249): return `gobj.copy()` where
`(gobj, fail) = self.masterFunc(x, ['gobj'])`. -/
def eval_grad_f {X A : Type} (masterFunc : X → List String → A × Bool) (x : X) : A :=
  (masterFunc x ["gobj"]).1

/-- The two shapes `eval_jac_g` can return: the structure tuple or the value
array. -/
inductive JacRet (A : Type) where
  | struct (ms : List Nat × List Nat)
  | vals (g : A)
deriving DecidableEq

/-- Embedding of `eval_jac_g` (lines 251-256): if `flag` is truthy return
`copy.deepcopy(matStruct)` (value-identity here), otherwise return
`gcon.copy()` where `(gcon, fail) = self.masterFunc(x, ['gcon'])`. -/
def eval_jac_g {X A : Type} (masterFunc : X → List String → A × Bool)
    (matStruct : List Nat × List Nat) (x : X) (flag : Bool) : JacRet A :=
  if flag then JacRet.struct matStruct
  else JacRet.vals (masterFunc x ["gcon"]).1

/-- The steps of the prologue of `__call__` that the claims order against
each other. -/
inductive CallEvent where
  | markUnconstrained
  | finalizeDesignVariables
  | finalizeConstraints
deriving DecidableEq

/-- Embedding of lines 182-196 of `__call__`: if `optProb.constraints` is
empty, set `self.unconstrained = True` and `optProb.dummyConstraint = True`;
then call `finalizeDesignVariables` and `finalizeConstraints` on the
(possibly updated) problem.  Returns the updated optimizer state, the problem
object as handed to the finalize calls, and the event order. -/
def callPrelude (st : OptimizerState) (optProb : OptProb) :
    OptimizerState × OptProb × List CallEvent :=
  if optProb.constraints.length = 0 then
    ({ st with unconstrained := true },
     { optProb with dummyConstraint := true },
     [CallEvent.markUnconstrained, CallEvent.finalizeDesignVariables,
      CallEvent.finalizeConstraints])
  else
    (st, optProb,
     [CallEvent.finalizeDesignVariables, CallEvent.finalizeConstraints])

/-- The tuple `nlp.solve(xs)` returns at line 265:
`x, zl, zu, constraint_multipliers, obj, status`. -/
structure SolveResult (V O : Type) where
  x : V
  zl : V
  zu : V
  constraint_multipliers : V
  obj : O
  status : Int

/-- Embedding of lines 267-279 on the root process: the solution is
`self._createSolution(optTime, funcEval, sol_inform, obj)` with
`funcEval = 1`, `sol_inform = {}` the empty dict, and `obj` exactly as
returned by `nlp.solve`.  `_createSolution` lives in the base class and is
abstract here. -/
def callFinish {V O S : Type} (createSolution : Rat → Nat → List (String × String) → O → S)
    (optTime : Rat) (res : SolveResult V O) : S :=
  createSolution optTime 1 [] res.obj

/-- Embedding of lines 281-296: on rank 0 `sol` is the root solution, on any
other rank the waiting loop leaves `sol = None`; when mpi4py is available the
root's `sol` is then broadcast to every process. -/
def callReturn {S : Type} (mpiAvailable : Bool) (rank : Nat) (rootSol : S) :
    Option S :=
  let sol : Option S := if rank = 0 then some rootSol else none
  if mpiAvailable then some rootSol else sol

/-- Embedding of `IPOPT._on_getInform` (lines 340-360).  `infocode` is
subscripted before the `try` block, so an empty sequence raises `IndexError`
(Python 2 integer division is floor division, hence `Int.fdiv`); the `try`
only guards the `self.informs[mjr_code]` lookup, whose failure yields
`'Unknown Exit Status'`.  The (unused) `mnr_code` of the source is kept. -/
def on_getInform (informs : List (Int × String)) (infocode : List Int) :
    Except String String :=
  match infocode with
  | [] => Except.error "IndexError"
  | i0 :: _ =>
    let mjr_code : Int := (Int.fdiv i0 10) * 10
    let _mnr_code : Int := i0 - 10 * mjr_code
    match informs.find? (fun p => p.1 == mjr_code) with
    | some p => Except.ok p.2
    | none => Except.ok "Unknown Exit Status"

/-- Specification-side dispatch rule for claims C4 and C6: the single setter
call an entry `[name, value]` should produce, `none` for an unforwardable
value. -/
def setterFor : String × PyVal → Option SetterCall
  | (n, PyVal.str s) => some (SetterCall.strOption n s)
  | (n, PyVal.float q) => some (SetterCall.numOption n q)
  | (n, PyVal.int i) => some (SetterCall.intOption n i)
  | (_, PyVal.other _) => none

/-- Helper: the trace produced by `_set_ipopt_options` is exactly the
in-order `filterMap` of the entries through the dispatch rule `setterFor`. -/
theorem set_ipopt_options_eq_filterMap (opts : List (String × PyVal)) :
    set_ipopt_options opts = opts.filterMap setterFor := by
  induction opts with
  | nil => rfl
  | cons e rest ih =>
    obtain ⟨nm, val⟩ := e
    cases val <;> simp [set_ipopt_options, setterFor, ih]

/-- Claim C1: before calling the solver, `__call__` collects the Jacobian
blocks of every non-linear constraint in order, processes them into a full
Jacobian, stacks the linear Jacobian below the non-linear part whenever
`optProb.linearJacobian` is not `None`, stores copies of the resulting row
and col arrays as `matStruct`, and passes `nnzj = len(matStruct[0])` and
`nnzh = 0` to the solver constructor. -/
theorem call_translates_jacobian
    (process : List (String × COOMat) → COOMat)
    (cons : List Constraint) (lj : COOMat) :
    (setupJacobian process cons none).matStruct
        = ((process (collectNonlinearJacs cons)).row,
           (process (collectNonlinearJacs cons)).col)
  ∧ (setupJacobian process cons (some lj)).matStruct
        = ((process (collectNonlinearJacs cons)).row
             ++ lj.row.map (fun r => r + (process (collectNonlinearJacs cons)).nrows),
           (process (collectNonlinearJacs cons)).col ++ lj.col)
  ∧ (∀ o : Option COOMat,
        (setupJacobian process cons o).nnzj
            = (setupJacobian process cons o).matStruct.1.length
      ∧ (setupJacobian process cons o).nnzh = 0)
  ∧ collectNonlinearJacs cons
      = (cons.filter (fun c => !c.linear)).map (fun c => (c.name, c.jac)) := by
  refine ⟨rfl, rfl, ?_, ?_⟩
  · intro o
    cases o <;> exact ⟨rfl, rfl⟩
  · induction cons with
    | nil => rfl
    | cons c cs ih =>
      cases hc : c.linear <;> simp [collectNonlinearJacs, hc, ih]

/-- Claim C2: `eval_f`, `eval_g` and `eval_grad_f` do no numerical work of
their own: each returns exactly the requested component of
`self.masterFunc(x, [key])` (for `eval_g`/`eval_grad_f`, a copy, which is the
value itself in the pure model), and the `fail` flag is discarded — changing
it arbitrarily never changes any callback's output. -/
theorem callbacks_delegate_to_masterFunc {X A : Type}
    (mf : X → List String → A × Bool) (x : X) (flip : Bool → Bool) :
    eval_f mf x = (mf x ["fobj"]).1
  ∧ eval_g mf x = (mf x ["fcon"]).1
  ∧ eval_grad_f mf x = (mf x ["gobj"]).1
  ∧ eval_f (fun y ks => ((mf y ks).1, flip (mf y ks).2)) x = eval_f mf x
  ∧ eval_g (fun y ks => ((mf y ks).1, flip (mf y ks).2)) x = eval_g mf x
  ∧ eval_grad_f (fun y ks => ((mf y ks).1, flip (mf y ks).2)) x
      = eval_grad_f mf x :=
  ⟨rfl, rfl, rfl, rfl, rfl, rfl⟩

/-- Claim C3: whenever its flag is truthy, `eval_jac_g` returns (a deep copy
of) the fixed `matStruct` — the same value on every call, independent of `x`;
whenever the flag is falsy it returns the `gcon` component of
`self.masterFunc(x, ['gcon'])`. -/
theorem eval_jac_g_dispatch {X A : Type}
    (mf : X → List String → A × Bool) (ms : List Nat × List Nat) (x y : X) :
    eval_jac_g mf ms x true = JacRet.struct ms
  ∧ eval_jac_g mf ms x true = eval_jac_g mf ms y true
  ∧ eval_jac_g mf ms x false = JacRet.vals (mf x ["gcon"]).1 :=
  ⟨rfl, rfl, rfl⟩

/-- Claim C4: `_set_ipopt_options` forwards every entry of
`self.set_options` in append order, making exactly one setter call per
forwarded entry chosen by the runtime type of the value (`str_option` for a
string, `num_option` for a float, `int_option` for an int); and
`_on_setOption` records an option by appending `[name, value]`. -/
theorem set_options_forwarded_in_order (opts : List (String × PyVal))
    (st : List (String × PyVal)) (n : String) (v : PyVal) :
    set_ipopt_options opts = opts.filterMap setterFor
  ∧ on_setOption st n v = st ++ [(n, v)] :=
  ⟨set_ipopt_options_eq_filterMap opts, rfl⟩

/-- Claim C5: on the root process the returned solution is built by
`_createSolution` from the elapsed wall time and the objective value returned
unchanged by `nlp.solve` (with `funcEval = 1` and an empty `sol_inform`);
when MPI is available the root's solution is broadcast, so `__call__` returns
that same solution on every rank; without MPI the root returns it directly. -/
theorem results_converted_and_broadcast {V O S : Type}
    (createSolution : Rat → Nat → List (String × String) → O → S)
    (optTime : Rat) (res : SolveResult V O) (rank : Nat) :
    callFinish createSolution optTime res = createSolution optTime 1 [] res.obj
  ∧ callReturn true rank (callFinish createSolution optTime res)
      = some (callFinish createSolution optTime res)
  ∧ callReturn false 0 (callFinish createSolution optTime res)
      = some (callFinish createSolution optTime res) :=
  ⟨rfl, rfl, rfl⟩

/-- Claim C6: only user-set options (entries of `self.set_options`) are ever
forwarded: the constructor leaves `set_options` empty although `def_opts` has
21 defaults (among them `tol = 1e-6`, `max_iter = 100`,
`hessian_approximation = 'limited-memory'`), so a run with no user-set
options makes no setter call at all, and every setter call in any trace comes
from an entry of `set_options`. -/
theorem only_user_set_options_forwarded (opts : List (String × PyVal))
    (c : SetterCall) :
    initState.set_options = []
  ∧ set_ipopt_options initState.set_options = []
  ∧ def_opts.length = 21
  ∧ ("tol", PyVal.float (1 / 1000000)) ∈ def_opts
  ∧ ("max_iter", PyVal.int 100) ∈ def_opts
  ∧ ("hessian_approximation", PyVal.str "limited-memory") ∈ def_opts
  ∧ (c ∈ set_ipopt_options opts → ∃ e ∈ opts, setterFor e = some c) := by
  refine ⟨rfl, rfl, rfl, by simp [def_opts], by simp [def_opts],
    by simp [def_opts], ?_⟩
  intro hc
  rw [set_ipopt_options_eq_filterMap] at hc
  exact List.mem_filterMap.mp hc

/-- Witness for C6 at a concrete trace: the one call produced by a single
user-set option is traced back to that entry. -/
theorem only_user_set_options_forwarded_witness :
    ∃ e ∈ [("tol", PyVal.str "adaptive")],
      setterFor e = some (SetterCall.strOption "tol" "adaptive") :=
  (only_user_set_options_forwarded [("tol", PyVal.str "adaptive")]
      (SetterCall.strOption "tol" "adaptive")).2.2.2.2.2.2 (by decide)

/-- Claim C7: when the problem has no constraints, `__call__` sets
`self.unconstrained = True` and `optProb.dummyConstraint = True` before the
finalize calls (so the problem handed on is marked for a dummy constraint);
with at least one constraint the optimizer state is untouched and
`self.unconstrained` keeps the constructor's `False`. -/
theorem empty_constraints_marked_unconstrained
    (st : OptimizerState) (lj : Option COOMat) (dj : Bool)
    (c : Constraint) (cs : List Constraint) :
    (callPrelude st (OptProb.mk [] lj dj)).1.unconstrained = true
  ∧ (callPrelude st (OptProb.mk [] lj dj)).2.1.dummyConstraint = true
  ∧ (callPrelude st (OptProb.mk [] lj dj)).2.2
      = [CallEvent.markUnconstrained, CallEvent.finalizeDesignVariables,
         CallEvent.finalizeConstraints]
  ∧ callPrelude st (OptProb.mk (c :: cs) lj dj)
      = (st, OptProb.mk (c :: cs) lj dj,
         [CallEvent.finalizeDesignVariables, CallEvent.finalizeConstraints])
  ∧ initState.unconstrained = false := by
  refine ⟨rfl, rfl, rfl, ?_, rfl⟩
  simp [callPrelude]

/-- Counterexample to claim C8 as stated: on the empty `infocode`,
`_on_getInform` does not return `'Unknown Exit Status'` — the subscript
`infocode[0]` sits before the `try` block and raises `IndexError`. -/
theorem getInform_raises_on_empty_infocode :
    on_getInform initState.informs [] = Except.error "IndexError"
  ∧ ¬ on_getInform initState.informs [] = Except.ok "Unknown Exit Status" := by
  refine ⟨rfl, ?_⟩
  intro h
  exact Except.noConfusion h

/-- Claim C8 (amended): for every `infocode` with at least one element,
`_on_getInform` returns `'Unknown Exit Status'` without raising: the
`informs` dictionary installed by the constructor is empty, so the guarded
lookup always fails and the `except` branch is always taken. -/
theorem getInform_unknown_on_nonempty (i0 : Int) (rest : List Int) :
    on_getInform initState.informs (i0 :: rest) = Except.ok "Unknown Exit Status"
  ∧ initState.informs = [] :=
  ⟨rfl, rfl⟩

/-- Claim C9: an entry whose value is neither a string, a float nor an int
never makes `_set_ipopt_options` fail: it is skipped (no setter call) and
processing continues, leaving the trace exactly as if the entry were
absent. -/
theorem invalid_option_type_skipped (pre post : List (String × PyVal))
    (n tag : String) :
    set_ipopt_options (pre ++ (n, PyVal.other tag) :: post)
      = set_ipopt_options (pre ++ post)
  ∧ set_ipopt_options [(n, PyVal.other tag)] = [] := by
  constructor
  · induction pre with
    | nil => rfl
    | cons e rest ih =>
      obtain ⟨nm, val⟩ := e
      cases val <;> simp [set_ipopt_options, ih]
  · rfl

end PyIPOPT
